import Mathlib

/-!
Verification of the Oodle structured-concurrency runtime against its
natural-language specification.

The development is a shallow embedding of the Python sources:

* src/oodle/mutex.py            -> Mutex
* src/oodle/threads.py          -> generate_timeout_durations, InterruptibleThread.throw,
                                   InterruptibleThread.run (teardown trace),
                                   InterruptibleThread.stop (stopPhase1 / stopPhase2)
* src/oodle/utilities.py        -> generate_timeout_durations_utilities
* src/oodle/channels.py         -> Channel and its operations
* src/oodle/dispatch_queues.py  -> DispatchQueue and its operations

Concurrency is embedded sequentially: every read of state that another thread
can mutate concurrently (the done and stopping events, the shield mutex's held
bit, lock-acquisition outcomes, the monotonic clock) is an input supplied by an
environment record, so the theorems quantify over all interleavings the real
scheduler could produce.  Machine floats in the source are modelled as
rationals.  A Python call that raises is modelled with an explicit error value.
-/

/--
Mutex, from src/oodle/mutex.py.  A threading.Semaphore initialised to 1 with an
extra `_held` attribute.  `semCount` is the semaphore's internal counter.
-/
structure Mutex where
  semCount : ℕ
  held : Bool
deriving DecidableEq

/-- Mutex() — freshly constructed mutex: one permit, not held (mutex.py lines 5-7). -/
def Mutex.new : Mutex := { semCount := 1, held := false }

/-- Mutex.is_held property (mutex.py lines 12-14): returns the `_held` attribute. -/
def Mutex.is_held (m : Mutex) : Bool := m.held

/--
Mutex.acquire (mutex.py lines 16-18): calls Semaphore.acquire(blocking, timeout)
and then sets `_held = True`.  The boolean result of the semaphore acquisition
is discarded by the source, so `_held` becomes true whether or not a permit was
obtained.  `ok` is the outcome of the underlying Semaphore.acquire call
(an environment input: false models a non-blocking failure or an expired
timeout; a permit is consumed only when it is true).
-/
def Mutex.acquire (m : Mutex) (ok : Bool) : Mutex :=
  { semCount := if ok then m.semCount - 1 else m.semCount, held := true }

/--
Mutex.release (mutex.py lines 20-22): Semaphore.release(1) then `_held = False`.
threading.Semaphore is unbounded, so releasing a permit never raises and the
counter can grow past its initial value.
-/
def Mutex.release (m : Mutex) : Mutex :=
  { semCount := m.semCount + 1, held := false }

/--
generate_timeout_durations from src/oodle/threads.py lines 179-190 (the version
used by InterruptibleThread.stop; it takes a `step` parameter, default 0.1).

The generator reads the clock once at creation (reading `clock 0`, the `start`
value) and once per loop test (the n-th next() call performs reading
`clock (n+1)`).  `generate_timeout_durations timeout clock step n` is the result
of the n-th next() call: `some d` when the generator yields the duration d,
`none` when it raises TimeoutError instead.  With a monotone clock the `none`
results form a suffix, matching the one-shot raise of the Python generator.
With `timeout = 0` the source yields from `cycle([0])` forever.
-/
def generate_timeout_durations (timeout : ℚ) (clock : ℕ → ℚ) (step : ℚ) (n : ℕ) :
    Option ℚ :=
  if timeout = 0 then some 0
  else if clock (n + 1) - clock 0 < timeout then
    some (min step (timeout - (clock (n + 1) - clock 0)))
  else none

/--
generate_timeout_durations from src/oodle/utilities.py lines 129-141 (the
version without a `step` parameter: it yields the whole remaining time each
iteration).  Same clock-reading convention as `generate_timeout_durations`.
-/
def generate_timeout_durations_utilities (timeout : ℚ) (clock : ℕ → ℚ) (n : ℕ) :
    Option ℚ :=
  if timeout = 0 then some 0
  else if clock (n + 1) - clock 0 < timeout then
    some (timeout - (clock (n + 1) - clock 0))
  else none

/-- Python exceptions surfaced by the Channel model (channels.py). -/
inductive ChanError where
  /-- AttributeError: an attribute access on None (the dropped queue reference). -/
  | attributeError
  /-- ValueError("Channel is closed") — the Closed contract error of the spec. -/
  | closedError
  /-- StopIteration raised by Channel.__next__ on an empty channel. -/
  | stopIteration
  /-- Marker for a call that blocks forever (Queue.get on an open empty queue). -/
  | blocksForever
deriving DecidableEq

/--
Channel, from src/oodle/channels.py.  `queue` is the `_queue` attribute:
`some items` while the queue.Queue object is alive, `none` after close() has
executed `self._queue = None`.  `hasPutCallback` records whether an
on_put_callback was configured and `putCallbackCalls` counts its invocations.
-/
structure Channel (T : Type) where
  queue : Option (List T)
  hasPutCallback : Bool
  putCallbackCalls : ℕ
deriving DecidableEq

/-- Channel.is_closed property (channels.py lines 32-34): `self._queue is None`. -/
def Channel.is_closed {T : Type} (c : Channel T) : Bool := c.queue.isNone

/--
Channel.is_empty property (channels.py lines 36-38): `self._queue.empty()`.
After close() the queue reference is None and the attribute access raises
AttributeError.
-/
def Channel.is_empty {T : Type} (c : Channel T) : Except ChanError Bool :=
  match c.queue with
  | none => .error .attributeError
  | some q => .ok q.isEmpty

/--
Channel.close (channels.py lines 40-42): `self._queue.shutdown(True)` then
`self._queue = None`.  On an already-closed channel the shutdown call is an
attribute access on None and raises AttributeError before any state change.
The result pairs the post-call state with the exception raised, if any.
-/
def Channel.close {T : Type} (c : Channel T) : Channel T × Option ChanError :=
  match c.queue with
  | none => (c, some .attributeError)
  | some _ => ({ c with queue := none }, none)

/--
Channel.put (channels.py lines 44-52): raises ValueError("Channel is closed")
when `_queue` is None, otherwise enqueues the value and then invokes the
on_put_callback when one is configured.
-/
def Channel.put {T : Type} (c : Channel T) (v : T) : Channel T × Option ChanError :=
  match c.queue with
  | none => (c, some .closedError)
  | some q =>
    ({ c with
        queue := some (q ++ [v]),
        putCallbackCalls := c.putCallbackCalls + (if c.hasPutCallback then 1 else 0) },
      none)

/--
Channel.get (channels.py lines 54-60): raises ValueError("Channel is closed")
when `_queue` is None, otherwise `self._queue.get()`, which dequeues the head
or blocks forever while the open queue stays empty (`blocksForever` marks the
call that never returns).
-/
def Channel.get {T : Type} (c : Channel T) : Channel T × Except ChanError T :=
  match c.queue with
  | none => (c, .error .closedError)
  | some [] => (c, .error .blocksForever)
  | some (x :: xs) => ({ c with queue := some xs }, .ok x)

/--
Channel.__next__ (channels.py lines 26-30): `if self.is_empty: raise
StopIteration` then `return self.get()`.  An exception from the is_empty
property (AttributeError on a closed channel) propagates unchanged.
-/
def Channel.next {T : Type} (c : Channel T) : Channel T × Except ChanError T :=
  match Channel.is_empty c with
  | .error e => (c, .error e)
  | .ok true => (c, .error .stopIteration)
  | .ok false => Channel.get c

/-- Error raised by DispatchQueue.dispatch_future on same-thread dispatch. -/
inductive DispatchError where
  /-- IllegalDispatchException (dispatch_queues.py lines 13-15). -/
  | illegalDispatch
deriving DecidableEq

/--
DispatchQueue, from src/oodle/dispatch_queues.py.  `worker` is the identity of
the dedicated worker thread handle stored in `self._thread`; `queue` is the
FIFO of pending (future, thunk) pairs, represented by thunk identifiers.
-/
structure DispatchQueue where
  worker : ℕ
  queue : List ℕ
deriving DecidableEq

/--
DispatchQueue.dispatch_future (dispatch_queues.py lines 33-42).  `caller` is
the value of `getattr(oodle.thread_locals, "thread", None)` in the calling
thread.  Modelled from the spec: the thread-local slot is installed at worker
start (spec section 9, "Thread-local slots (current Thread handle, ...) ...
initialized at worker start"); the installation code is not under src/, so the
slot's content is taken as an input: `some i` when the caller runs on the oodle
thread with identity i, `none` otherwise.  When the caller is the queue's own
worker the call raises IllegalDispatchException before creating the future or
enqueuing; otherwise the pair is appended to the FIFO and the future returned.
-/
def DispatchQueue.dispatch_future (q : DispatchQueue) (caller : Option ℕ) (item : ℕ) :
    DispatchQueue × Except DispatchError ℕ :=
  if caller = some q.worker then (q, .error .illegalDispatch)
  else ({ q with queue := q.queue ++ [item] }, .ok item)

/--
DispatchQueue.dispatch (dispatch_queues.py lines 27-31): dispatch_future
followed by Future.result(), which blocks; the IllegalDispatchException
behaviour is exactly that of dispatch_future.
-/
def DispatchQueue.dispatch (q : DispatchQueue) (caller : Option ℕ) (item : ℕ) :
    DispatchQueue × Except DispatchError ℕ :=
  DispatchQueue.dispatch_future q caller item

/--
DispatchQueue.safe_dispatch (dispatch_queues.py lines 44-51): when called on
the queue's own worker thread the function is invoked inline and nothing is
enqueued; otherwise it delegates to dispatch.  The boolean reports whether the
call ran inline.
-/
def DispatchQueue.safe_dispatch (q : DispatchQueue) (caller : Option ℕ) (item : ℕ) :
    DispatchQueue × Bool :=
  if caller = some q.worker then (q, true)
  else ((DispatchQueue.dispatch q caller item).1, false)

/-- How the user body invoked by InterruptibleThread.run terminates. -/
inductive BodyOutcome where
  /-- The target returns normally. -/
  | normal
  /-- The target raises ExitThread (the cancellation sentinel). -/
  | exitThread
  /-- The target raises SystemError (a spurious async-raise artefact). -/
  | systemError
  /-- The target raises any other Exception. -/
  | userExc
deriving DecidableEq

/-- Observable actions of the worker teardown in InterruptibleThread.run. -/
inductive TeardownEvent where
  /-- The call to self._safely_acquire_internal_lock() in the inner finally. -/
  | safelyAcquireInternalLock
  /-- The call _run_callback(self._exception_callback, e). -/
  | excCallback
  /-- A write setting the `_stopping` event (never performed by run itself). -/
  | setStopping
  /-- self.done.set(). -/
  | setDone
  /-- The call _run_callback(self._stop_callback). -/
  | stopCallback
  /-- self._internal_lock.release(). -/
  | releaseInternalLock
deriving DecidableEq

/--
InterruptibleThread.run (threads.py lines 52-70) as the ordered trace of its
teardown actions.  `stopping` is the value of `self._stopping.is_set()` when
the except clause classifies the exception: ExitThread is always swallowed,
SystemError is swallowed only while stopping is set, and every other Exception
is forwarded to the exception callback.  On every path the inner finally
acquires the internal lock safely, then the outer finally sets done, runs the
stop callback and releases the internal lock.
-/
def InterruptibleThread.run (stopping : Bool) (o : BodyOutcome) : List TeardownEvent :=
  [.safelyAcquireInternalLock]
    ++ (match o with
        | .normal => []
        | .exitThread => []
        | .systemError => if stopping then [] else [.excCallback]
        | .userExc => [.excCallback])
    ++ [.setDone, .stopCallback, .releaseInternalLock]

/--
InterruptibleThread._safely_acquire_internal_lock (threads.py lines 105-114):
a blocking acquire; when that acquire is interrupted by a SystemError the lock
is released if needed and acquired again.  The result is (lock held at return,
number of acquire attempts): both paths end with the lock held.
-/
def InterruptibleThread.safely_acquire_internal_lock (raisedSystemError : Bool) :
    Bool × ℕ :=
  if raisedSystemError then (true, 2) else (true, 1)

/--
InterruptibleThread.throw (threads.py lines 93-103): returns whether
PyThreadState_SetAsyncExc is invoked.  The guard returns early when the done
event is set, when the stopping event is set, or when the non-blocking acquire
of the target's internal lock fails.  `done`, `stopping` and `lockFree` are the
values those three reads observe.
-/
def InterruptibleThread.throw (done stopping lockFree : Bool) : Bool :=
  !(done || stopping || !lockFree)

/--
Environment of one InterruptibleThread.stop call: every read of state that the
target thread (or another thread) can mutate concurrently is an input, indexed
by the iteration of the loop performing the read, so the model ranges over all
interleavings.  The shield mutex's held bit is read through `held1` rather
than threaded through the stopper's own writes because the worker mutates the
same bit concurrently; `shield0` is the shield mutex state when the call
starts.
-/
structure StopEnv where
  /-- self.done.is_set() at the initial guard. -/
  done0 : Bool
  /-- self._stopping.is_set() at the initial guard. -/
  stopping0 : Bool
  /-- Whether self._stop_lock.acquire(blocking=False) succeeds. -/
  stopLockFree : Bool
  /-- The shield Mutex when the call starts. -/
  shield0 : Mutex
  /-- self.shield.is_held observed at check i of the shield-wait loop. -/
  held1 : ℕ → Bool
  /-- self.done.is_set() observed at check i of the shield-wait loop. -/
  done1 : ℕ → Bool
  /-- Outcome of the underlying semaphore acquire in iteration i of the shield-wait loop. -/
  acq1 : ℕ → Bool
  /-- self.done.is_set() observed at check m of the delivery loop. -/
  done2 : ℕ → Bool
  /-- Whether throw's non-blocking acquire of the internal lock succeeds in iteration m. -/
  lockFree2 : ℕ → Bool
  /-- The monotonic clock readings consumed by the timeout generator. -/
  clock : ℕ → ℚ

/-- How the modelled stop call ends. -/
inductive StopOutcome where
  /-- The initial guard returned early (done or stopping already set, or stop lock busy). -/
  | earlyReturn
  /-- The delivery loop observed done set and stop returned normally. -/
  | returned
  /-- TimeoutError raised by the generator inside the shield-wait loop. -/
  | timeout1
  /-- TimeoutError raised by the generator inside the delivery loop. -/
  | timeout2
  /-- Modelling fuel exhausted while a loop was still running. -/
  | stuck
deriving DecidableEq

/-- Observable result of a modelled InterruptibleThread.stop call. -/
structure StopResult where
  outcome : StopOutcome
  /-- The last value of self.done.is_set() the call observed. -/
  lastDone : Bool
  /-- Number of PyThreadState_SetAsyncExc invocations performed via throw. -/
  delivered : ℕ
  /-- Number of self.shield.release() calls performed. -/
  shieldReleases : ℕ
  /-- Number of self.shield.acquire calls performed in the shield-wait loop. -/
  acqAttempts : ℕ
  /-- How many of those acquires obtained the semaphore permit. -/
  acqSuccesses : ℕ
  /-- Whether execution reached the delivery loop (after setting stopping). -/
  reachedDelivery : Bool
  /-- Whether the call executed self._stopping.set(). -/
  stoppingSet : Bool
  /-- The shield mutex after applying the stopper's own acquire/release effects. -/
  finalShield : Mutex
  /-- Elapsed clock value at the generator call that raised TimeoutError, if one did. -/
  raiseElapsed : Option ℚ
deriving DecidableEq

/--
Default step of the threads.py generator (0.1 seconds), the value
InterruptibleThread.stop uses since it never overrides the default.
-/
def stepDefault : ℚ := 1 / 10

/--
Delivery loop of InterruptibleThread.stop (threads.py lines 83-89), entered
after `self._stopping.set()`: while done is not set, call self.throw(ExitThread())
and then join with the next generator slice (`slice or None`); when the
generator raises, TimeoutError propagates; in all exits the inner finally runs
self.shield.release() exactly once.  Because line 81 has set the stopping
event, every throw call passes stopping = true to its guard.  `fuel` bounds the
number of modelled iterations, `j` counts generator next() calls so far, `m`
counts delivery-loop iterations and `dAcc` accumulates async-raise deliveries.
The throw guard's own re-read of done is conflated with the loop test's read
(`done2 m`); its value cannot change the delivery count, which the stopping
guard already forces to zero.
-/
def stopPhase2 (t : ℚ) (env : StopEnv) (mtx : Mutex) (att succ : ℕ) :
    ℕ → ℕ → ℕ → ℕ → StopResult
  | 0, _j, _m, dAcc =>
    { outcome := .stuck, lastDone := false, delivered := dAcc, shieldReleases := 0,
      acqAttempts := att, acqSuccesses := succ, reachedDelivery := true,
      stoppingSet := true, finalShield := mtx, raiseElapsed := none }
  | fuel + 1, j, m, dAcc =>
    if env.done2 m then
      { outcome := .returned, lastDone := true, delivered := dAcc, shieldReleases := 1,
        acqAttempts := att, acqSuccesses := succ, reachedDelivery := true,
        stoppingSet := true, finalShield := mtx.release, raiseElapsed := none }
    else
      let dAcc' := dAcc + (if InterruptibleThread.throw (env.done2 m) true (env.lockFree2 m) then 1 else 0)
      match generate_timeout_durations t env.clock stepDefault j with
      | none =>
        { outcome := .timeout2, lastDone := false, delivered := dAcc', shieldReleases := 1,
          acqAttempts := att, acqSuccesses := succ, reachedDelivery := true,
          stoppingSet := true, finalShield := mtx.release,
          raiseElapsed := some (env.clock (j + 1) - env.clock 0) }
      | some _d => stopPhase2 t env mtx att succ fuel (j + 1) (m + 1) dAcc'

/--
Shield-wait loop of InterruptibleThread.stop (threads.py lines 78-81): while
self.shield.is_held and done is not set, acquire the shield with the next
generator slice as timeout; when the generator raises, TimeoutError propagates
and no shield release is performed (only the outer finally, which releases the
stop lock, runs).  On loop exit the call sets the stopping event and enters the
delivery loop.  `j` counts generator next() calls, which equals the loop
iteration index here because this loop runs first.
-/
def stopPhase1 (t : ℚ) (env : StopEnv) : ℕ → ℕ → Mutex → ℕ → ℕ → StopResult
  | 0, _j, mtx, att, succ =>
    { outcome := .stuck, lastDone := false, delivered := 0, shieldReleases := 0,
      acqAttempts := att, acqSuccesses := succ, reachedDelivery := false,
      stoppingSet := false, finalShield := mtx, raiseElapsed := none }
  | fuel + 1, j, mtx, att, succ =>
    if env.held1 j && !env.done1 j then
      match generate_timeout_durations t env.clock stepDefault j with
      | none =>
        { outcome := .timeout1, lastDone := false, delivered := 0, shieldReleases := 0,
          acqAttempts := att, acqSuccesses := succ, reachedDelivery := false,
          stoppingSet := false, finalShield := mtx,
          raiseElapsed := some (env.clock (j + 1) - env.clock 0) }
      | some _d =>
        stopPhase1 t env fuel (j + 1) (mtx.acquire (env.acq1 j)) (att + 1)
          (succ + if env.acq1 j then 1 else 0)
    else
      stopPhase2 t env mtx att succ (fuel + 1) j 0 0

/--
InterruptibleThread.stop (threads.py lines 72-91).  A timeout generator is
created, then the guard returns early when done is set, when stopping is set,
or when the non-blocking acquire of the stop lock fails; otherwise the
shield-wait loop and then the delivery loop run.  `fuel` bounds the number of
modelled loop iterations and `t` is the timeout argument.
-/
def InterruptibleThread.stop (fuel : ℕ) (t : ℚ) (env : StopEnv) : StopResult :=
  if env.done0 || env.stopping0 || !env.stopLockFree then
    { outcome := .earlyReturn, lastDone := env.done0, delivered := 0, shieldReleases := 0,
      acqAttempts := 0, acqSuccesses := 0, reachedDelivery := false,
      stoppingSet := false, finalShield := env.shield0, raiseElapsed := none }
  else
    stopPhase1 t env fuel 0 env.shield0 0 0

/--
Clock used in counterexamples: a constant clock.  time.monotonic is only
guaranteed non-decreasing, so a stalled clock is a legitimate monotone clock.
-/
def exClock : ℕ → ℚ := fun _ => 0

/--
Environment of a guard-passing stop call whose target holds no shield and sets
done before the first delivery-loop check: an honest interleaving in which the
shield-wait loop never runs an iteration and the delivery loop exits at once.
The clock reads 0 at generator creation and 1/10 from then on.
-/
def envW : StopEnv :=
  { done0 := false, stopping0 := false, stopLockFree := true, shield0 := Mutex.new,
    held1 := fun _ => false, done1 := fun _ => false, acq1 := fun _ => false,
    done2 := fun _ => true, lockFree2 := fun _ => true,
    clock := fun n => if n = 0 then 0 else 1 / 10 }

/--
Environment of a stop call issued while another stop of the same thread is in
progress: the stopping event is already set at the guard, the thread is not
done and never finishes during the call.
-/
def envC : StopEnv :=
  { done0 := false, stopping0 := true, stopLockFree := true, shield0 := Mutex.new,
    held1 := fun _ => false, done1 := fun _ => false, acq1 := fun _ => false,
    done2 := fun _ => false, lockFree2 := fun _ => true, clock := fun _ => 0 }

/--
Clock used in witnesses: the identity clock, advancing one second per reading.
-/
def castClock : ℕ → ℚ := fun n => (n : ℚ)

/-! ### Helper lemmas about the timeout generators -/

theorem generate_timeout_durations_none_iff (t : ℚ) (c : ℕ → ℚ) (s : ℚ) (j : ℕ)
    (ht : t ≠ 0) :
    generate_timeout_durations t c s j = none ↔ t ≤ c (j + 1) - c 0 := by
  unfold generate_timeout_durations
  rw [if_neg ht]
  split_ifs with h
  · exact iff_of_false (by simp) (not_le.mpr h)
  · exact iff_of_true rfl (not_lt.mp h)

theorem generate_timeout_durations_some_iff (t : ℚ) (c : ℕ → ℚ) (s : ℚ) (j : ℕ) (d : ℚ)
    (ht : t ≠ 0) :
    generate_timeout_durations t c s j = some d ↔
      c (j + 1) - c 0 < t ∧ d = min s (t - (c (j + 1) - c 0)) := by
  unfold generate_timeout_durations
  rw [if_neg ht]
  split_ifs with h
  · simp only [Option.some.injEq]
    constructor
    · intro hd; exact ⟨h, hd.symm⟩
    · intro hd; exact hd.2.symm
  · exact iff_of_false (by simp) (by intro hd; exact h hd.1)

theorem generate_timeout_durations_utilities_none_iff (t : ℚ) (c : ℕ → ℚ) (j : ℕ)
    (ht : t ≠ 0) :
    generate_timeout_durations_utilities t c j = none ↔ t ≤ c (j + 1) - c 0 := by
  unfold generate_timeout_durations_utilities
  rw [if_neg ht]
  split_ifs with h
  · exact iff_of_false (by simp) (not_le.mpr h)
  · exact iff_of_true rfl (not_lt.mp h)

theorem generate_timeout_durations_utilities_some_iff (t : ℚ) (c : ℕ → ℚ) (j : ℕ) (d : ℚ)
    (ht : t ≠ 0) :
    generate_timeout_durations_utilities t c j = some d ↔
      c (j + 1) - c 0 < t ∧ d = t - (c (j + 1) - c 0) := by
  unfold generate_timeout_durations_utilities
  rw [if_neg ht]
  split_ifs with h
  · simp only [Option.some.injEq]
    constructor
    · intro hd; exact ⟨h, hd.symm⟩
    · intro hd; exact hd.2.symm
  · exact iff_of_false (by simp) (by intro hd; exact h hd.1)

theorem generate_timeout_durations_none_of_ge (t : ℚ) (c : ℕ → ℚ) (s : ℚ)
    (hmono : Monotone c) {N j : ℕ} (hN : t ≤ c (N + 1) - c 0) (hj : N ≤ j)
    (ht : t ≠ 0) :
    generate_timeout_durations t c s j = none := by
  rw [generate_timeout_durations_none_iff t c s j ht]
  have hc : c (N + 1) ≤ c (j + 1) := hmono (Nat.succ_le_succ hj)
  linarith

theorem clock_readings_le (t : ℚ) (c : ℕ → ℚ) (s : ℚ) (ht : 0 < t)
    (hstart : c 1 - c 0 ≤ t)
    (hadv : ∀ j, c (j + 2) - c (j + 1) ≤ (generate_timeout_durations t c s j).getD 0) :
    ∀ j, c (j + 1) - c 0 ≤ t := by
  intro j
  induction j with
  | zero => exact hstart
  | succ k ih =>
    have h2 := hadv k
    rcases hgen : generate_timeout_durations t c s k with _ | d
    · rw [hgen] at h2
      simp only [Option.getD_none] at h2
      have : c (k + 1 + 1) - c 0 ≤ c (k + 1) - c 0 := by linarith
      linarith
    · rw [hgen] at h2
      simp only [Option.getD_some] at h2
      obtain ⟨hlt, hd⟩ :=
        (generate_timeout_durations_some_iff t c s k d (ne_of_gt ht)).mp hgen
      have hdle : d ≤ t - (c (k + 1) - c 0) := hd ▸ min_le_right _ _
      have : c (k + 1 + 1) - c 0 ≤ (c (k + 1) - c 0) + d := by linarith
      linarith

theorem yields_sum_le (t : ℚ) (c : ℕ → ℚ) (y : ℕ → ℚ) (ht : 0 < t)
    (hc : c 0 ≤ c 1)
    (hy : ∀ j, y j ≤ t - (c (j + 1) - c 0) ∨ y j = 0)
    (hadv : ∀ j, y j ≤ c (j + 2) - c (j + 1)) :
    ∀ n, ((List.range n).map y).sum ≤ t := by
  have key : ∀ n, ((List.range n).map y).sum ≤ t ∧
      ((List.range n).map y).sum ≤ c (n + 1) - c 0 := by
    intro n
    induction n with
    | zero => exact ⟨le_of_lt ht, by simpa using hc⟩
    | succ k ih =>
      have hsum : ((List.range (k + 1)).map y).sum = ((List.range k).map y).sum + y k := by
        rw [List.range_succ, List.map_append, List.sum_append]
        simp
      have hstep := hadv k
      rcases hy k with hyk | hyk
      · constructor
        · rw [hsum]; linarith [ih.2]
        · rw [hsum]
          have : c (k + 1) - c 0 + y k ≤ c (k + 1 + 1) - c 0 := by linarith
          linarith [ih.2]
      · constructor
        · rw [hsum, hyk]; linarith [ih.1]
        · rw [hsum, hyk]
          have h0 : (0 : ℚ) ≤ c (k + 2) - c (k + 1) := hyk ▸ hstep
          have : c (k + 1) - c 0 ≤ c (k + 1 + 1) - c 0 := by
            have : c (k + 1 + 1) = c (k + 2) := by norm_num
            linarith [h0, this.ge]
          linarith [ih.2]
  intro n
  exact (key n).1

theorem generate_timeout_durations_getD_cases (t : ℚ) (c : ℕ → ℚ) (s : ℚ) (j : ℕ)
    (ht : t ≠ 0) :
    (generate_timeout_durations t c s j).getD 0 ≤ t - (c (j + 1) - c 0) ∨
      (generate_timeout_durations t c s j).getD 0 = 0 := by
  rcases hgen : generate_timeout_durations t c s j with _ | d
  · right; rfl
  · left
    obtain ⟨_, hd⟩ := (generate_timeout_durations_some_iff t c s j d ht).mp hgen
    simp [hd]

theorem generate_timeout_durations_utilities_getD_cases (t : ℚ) (c : ℕ → ℚ) (j : ℕ)
    (ht : t ≠ 0) :
    (generate_timeout_durations_utilities t c j).getD 0 ≤ t - (c (j + 1) - c 0) ∨
      (generate_timeout_durations_utilities t c j).getD 0 = 0 := by
  rcases hgen : generate_timeout_durations_utilities t c j with _ | d
  · right; rfl
  · left
    obtain ⟨_, hd⟩ := (generate_timeout_durations_utilities_some_iff t c j d ht).mp hgen
    simp [hd]

/-! ### Helper lemmas about the modelled stop call -/

theorem throw_of_stopping (done lockFree : Bool) :
    InterruptibleThread.throw done true lockFree = false := by
  simp [InterruptibleThread.throw]

theorem stopPhase2_delivered (t : ℚ) (env : StopEnv) (mtx : Mutex) (att succ : ℕ) :
    ∀ fuel j m dAcc, (stopPhase2 t env mtx att succ fuel j m dAcc).delivered = dAcc := by
  intro fuel
  induction fuel with
  | zero => intro j m dAcc; rfl
  | succ k ih =>
    intro j m dAcc
    by_cases hd : env.done2 m = true
    · simp [stopPhase2, hd]
    · rcases hgen : generate_timeout_durations t env.clock stepDefault j with _ | d
      · simp [stopPhase2, hd, hgen, InterruptibleThread.throw]
      · simp [stopPhase2, hd, hgen, InterruptibleThread.throw, ih]

theorem stopPhase2_c8 (t : ℚ) (env : StopEnv) (mtx : Mutex) (att succ : ℕ) :
    ∀ fuel j m dAcc,
      (stopPhase2 t env mtx att succ fuel j m dAcc).outcome = .returned ∨
        (stopPhase2 t env mtx att succ fuel j m dAcc).outcome = .timeout2 →
      (stopPhase2 t env mtx att succ fuel j m dAcc).shieldReleases = 1 ∧
        (stopPhase2 t env mtx att succ fuel j m dAcc).finalShield = mtx.release ∧
        (stopPhase2 t env mtx att succ fuel j m dAcc).acqAttempts = att ∧
        (stopPhase2 t env mtx att succ fuel j m dAcc).acqSuccesses = succ := by
  intro fuel
  induction fuel with
  | zero =>
    intro j m dAcc h
    simp [stopPhase2] at h
  | succ k ih =>
    intro j m dAcc h
    by_cases hd : env.done2 m = true
    · simp [stopPhase2, hd]
    · rcases hgen : generate_timeout_durations t env.clock stepDefault j with _ | d
      · simp [stopPhase2, hd, hgen]
      · have heq : stopPhase2 t env mtx att succ (k + 1) j m dAcc =
            stopPhase2 t env mtx att succ k (j + 1) (m + 1)
              (dAcc + if InterruptibleThread.throw (env.done2 m) true (env.lockFree2 m)
                then 1 else 0) := by
          simp [stopPhase2, hd, hgen]
        rw [heq] at h ⊢
        exact ih _ _ _ h

theorem stopPhase2_dichotomy (t : ℚ) (env : StopEnv) (N : ℕ) (ht : 0 < t)
    (hmono : Monotone env.clock) (hN : t ≤ env.clock (N + 1) - env.clock 0)
    (mtx : Mutex) (att succ : ℕ) :
    ∀ fuel j m dAcc, N + 2 ≤ fuel + j → j ≤ N + 1 →
      ((stopPhase2 t env mtx att succ fuel j m dAcc).outcome = .returned ∧
        (stopPhase2 t env mtx att succ fuel j m dAcc).lastDone = true) ∨
      ((stopPhase2 t env mtx att succ fuel j m dAcc).outcome = .timeout2 ∧
        (stopPhase2 t env mtx att succ fuel j m dAcc).lastDone = false) := by
  intro fuel
  induction fuel with
  | zero => intro j m dAcc h1 h2; omega
  | succ k ih =>
    intro j m dAcc h1 h2
    by_cases hd : env.done2 m = true
    · left; simp [stopPhase2, hd]
    · rcases hgen : generate_timeout_durations t env.clock stepDefault j with _ | d
      · right; simp [stopPhase2, hd, hgen]
      · have hjN : j < N := by
          by_contra hge
          have hnone := generate_timeout_durations_none_of_ge t env.clock stepDefault
            hmono hN (Nat.le_of_not_lt hge) (ne_of_gt ht)
          rw [hgen] at hnone
          exact Option.noConfusion hnone
        have heq : stopPhase2 t env mtx att succ (k + 1) j m dAcc =
            stopPhase2 t env mtx att succ k (j + 1) (m + 1)
              (dAcc + if InterruptibleThread.throw (env.done2 m) true (env.lockFree2 m)
                then 1 else 0) := by
          simp [stopPhase2, hd, hgen]
        rw [heq]
        exact ih (j + 1) (m + 1) _ (by omega) (by omega)

theorem stopPhase2_raise (t : ℚ) (env : StopEnv) (mtx : Mutex) (att succ : ℕ)
    (ht : 0 < t) :
    ∀ fuel j m dAcc e,
      (stopPhase2 t env mtx att succ fuel j m dAcc).raiseElapsed = some e →
      t ≤ e ∧ ∃ k, e = env.clock (k + 1) - env.clock 0 := by
  intro fuel
  induction fuel with
  | zero => intro j m dAcc e h; simp [stopPhase2] at h
  | succ k ih =>
    intro j m dAcc e h
    by_cases hd : env.done2 m = true
    · simp [stopPhase2, hd] at h
    · rcases hgen : generate_timeout_durations t env.clock stepDefault j with _ | d
      · have hh : (stopPhase2 t env mtx att succ (k + 1) j m dAcc).raiseElapsed =
            some (env.clock (j + 1) - env.clock 0) := by
          simp [stopPhase2, hd, hgen]
        rw [hh] at h
        injection h with h'
        subst h'
        exact ⟨(generate_timeout_durations_none_iff t env.clock stepDefault j
          (ne_of_gt ht)).mp hgen, ⟨j, rfl⟩⟩
      · have heq : stopPhase2 t env mtx att succ (k + 1) j m dAcc =
            stopPhase2 t env mtx att succ k (j + 1) (m + 1)
              (dAcc + if InterruptibleThread.throw (env.done2 m) true (env.lockFree2 m)
                then 1 else 0) := by
          simp [stopPhase2, hd, hgen]
        rw [heq] at h
        exact ih _ _ _ _ h

theorem stopPhase1_delivered (t : ℚ) (env : StopEnv) :
    ∀ fuel j mtx att succ, (stopPhase1 t env fuel j mtx att succ).delivered = 0 := by
  intro fuel
  induction fuel with
  | zero => intro j mtx att succ; rfl
  | succ k ih =>
    intro j mtx att succ
    by_cases hcond : (env.held1 j && !env.done1 j) = true
    · rcases hgen : generate_timeout_durations t env.clock stepDefault j with _ | d
      · simp [stopPhase1, hcond, hgen]
      · simp [stopPhase1, hcond, hgen, ih]
    · simp [stopPhase1, hcond, stopPhase2_delivered]

theorem stopPhase1_c8 (t : ℚ) (env : StopEnv) (base : ℕ) :
    ∀ fuel j mtx att succ,
      (succ = 0 → mtx.semCount = base) →
      ((stopPhase1 t env fuel j mtx att succ).outcome = .returned ∨
        (stopPhase1 t env fuel j mtx att succ).outcome = .timeout2) →
      (stopPhase1 t env fuel j mtx att succ).shieldReleases = 1 ∧
        ((stopPhase1 t env fuel j mtx att succ).acqSuccesses = 0 →
          (stopPhase1 t env fuel j mtx att succ).finalShield.semCount = base + 1) := by
  intro fuel
  induction fuel with
  | zero => intro j mtx att succ hinv h; simp [stopPhase1] at h
  | succ k ih =>
    intro j mtx att succ hinv h
    by_cases hcond : (env.held1 j && !env.done1 j) = true
    · rcases hgen : generate_timeout_durations t env.clock stepDefault j with _ | d
      · simp [stopPhase1, hcond, hgen] at h
      · have heq : stopPhase1 t env (k + 1) j mtx att succ =
            stopPhase1 t env k (j + 1) (mtx.acquire (env.acq1 j)) (att + 1)
              (succ + if env.acq1 j then 1 else 0) := by
          simp [stopPhase1, hcond, hgen]
        rw [heq] at h ⊢
        refine ih _ _ _ _ ?_ h
        intro hz
        by_cases hacq : env.acq1 j = true
        · simp [hacq] at hz
        · simp only [hacq, if_false, Bool.false_eq_true] at hz
          have hsz : succ = 0 := by omega
          simp [Mutex.acquire, hacq, hinv hsz]
    · have heq : stopPhase1 t env (k + 1) j mtx att succ =
          stopPhase2 t env mtx att succ (k + 1) j 0 0 := by
        simp [stopPhase1, hcond]
      rw [heq] at h ⊢
      obtain ⟨hr, hfs, _hatt, hsucc⟩ := stopPhase2_c8 t env mtx att succ (k + 1) j 0 0 h
      refine ⟨hr, ?_⟩
      intro hz
      rw [hsucc] at hz
      rw [hfs]
      simp [Mutex.release, hinv hz]

theorem stopPhase1_dichotomy (t : ℚ) (env : StopEnv) (N : ℕ) (ht : 0 < t)
    (hmono : Monotone env.clock) (hN : t ≤ env.clock (N + 1) - env.clock 0) :
    ∀ fuel j mtx att succ, N + 2 ≤ fuel + j → j ≤ N + 1 →
      ((stopPhase1 t env fuel j mtx att succ).outcome = .returned ∧
        (stopPhase1 t env fuel j mtx att succ).lastDone = true) ∨
      (((stopPhase1 t env fuel j mtx att succ).outcome = .timeout1 ∨
          (stopPhase1 t env fuel j mtx att succ).outcome = .timeout2) ∧
        (stopPhase1 t env fuel j mtx att succ).lastDone = false) := by
  intro fuel
  induction fuel with
  | zero => intro j mtx att succ h1 h2; omega
  | succ k ih =>
    intro j mtx att succ h1 h2
    by_cases hcond : (env.held1 j && !env.done1 j) = true
    · rcases hgen : generate_timeout_durations t env.clock stepDefault j with _ | d
      · right
        constructor
        · left; simp [stopPhase1, hcond, hgen]
        · simp [stopPhase1, hcond, hgen]
      · have hjN : j < N := by
          by_contra hge
          have hnone := generate_timeout_durations_none_of_ge t env.clock stepDefault
            hmono hN (Nat.le_of_not_lt hge) (ne_of_gt ht)
          rw [hgen] at hnone
          exact Option.noConfusion hnone
        have heq : stopPhase1 t env (k + 1) j mtx att succ =
            stopPhase1 t env k (j + 1) (mtx.acquire (env.acq1 j)) (att + 1)
              (succ + if env.acq1 j then 1 else 0) := by
          simp [stopPhase1, hcond, hgen]
        rw [heq]
        exact ih (j + 1) _ _ _ (by omega) (by omega)
    · have heq : stopPhase1 t env (k + 1) j mtx att succ =
          stopPhase2 t env mtx att succ (k + 1) j 0 0 := by
        simp [stopPhase1, hcond]
      rw [heq]
      rcases stopPhase2_dichotomy t env N ht hmono hN mtx att succ (k + 1) j 0 0
          (by omega) h2 with hl | hr
      · exact Or.inl hl
      · exact Or.inr ⟨Or.inr hr.1, hr.2⟩

theorem stopPhase1_raise (t : ℚ) (env : StopEnv) (ht : 0 < t) :
    ∀ fuel j mtx att succ e,
      (stopPhase1 t env fuel j mtx att succ).raiseElapsed = some e →
      t ≤ e ∧ ∃ k, e = env.clock (k + 1) - env.clock 0 := by
  intro fuel
  induction fuel with
  | zero => intro j mtx att succ e h; simp [stopPhase1] at h
  | succ k ih =>
    intro j mtx att succ e h
    by_cases hcond : (env.held1 j && !env.done1 j) = true
    · rcases hgen : generate_timeout_durations t env.clock stepDefault j with _ | d
      · have hh : (stopPhase1 t env (k + 1) j mtx att succ).raiseElapsed =
            some (env.clock (j + 1) - env.clock 0) := by
          simp [stopPhase1, hcond, hgen]
        rw [hh] at h
        injection h with h'
        subst h'
        exact ⟨(generate_timeout_durations_none_iff t env.clock stepDefault j
          (ne_of_gt ht)).mp hgen, ⟨j, rfl⟩⟩
      · have heq : stopPhase1 t env (k + 1) j mtx att succ =
            stopPhase1 t env k (j + 1) (mtx.acquire (env.acq1 j)) (att + 1)
              (succ + if env.acq1 j then 1 else 0) := by
          simp [stopPhase1, hcond, hgen]
        rw [heq] at h
        exact ih _ _ _ _ _ h
    · have heq : stopPhase1 t env (k + 1) j mtx att succ =
          stopPhase2 t env mtx att succ (k + 1) j 0 0 := by
        simp [stopPhase1, hcond]
      rw [heq] at h
      exact stopPhase2_raise t env mtx att succ ht _ _ _ _ _ h

/-! ### Claim theorems -/

/--
C9 (confirmed): for every Mutex m, after any acquire call returns `is_held` is
true — also when the underlying semaphore acquisition failed (ok = false), in
which case no permit was consumed, so `is_held` reports true without the caller
having acquired the mutex.
-/
theorem c9_acquire_always_marks_held (m : Mutex) (ok : Bool) :
    (Mutex.acquire m ok).is_held = true ∧
    (Mutex.acquire m false).is_held = true ∧
    (Mutex.acquire m false).semCount = m.semCount := by
  cases ok <;> simp [Mutex.acquire, Mutex.is_held]

/--
C3 counterexample: on the normal-return termination path (with the stopping
event unset), the teardown of InterruptibleThread.run sets the done flag but
never sets the stopping flag, so the claim that the teardown sets stopping and
then done is false on this concrete path.
-/
theorem c3_counterexample :
    TeardownEvent.setDone ∈ InterruptibleThread.run false .normal ∧
    TeardownEvent.setStopping ∉ InterruptibleThread.run false .normal := by
  decide

/--
C3 (corrected): on every termination path of the worker body (normal return,
ExitThread, SystemError or user exception, with the stopping event in either
state), the teardown first acquires the internal lock safely (ending with the
lock held), sets the done flag exactly once, and ends with done, the stop
callback and the internal-lock release in that order; the teardown itself never
sets the stopping flag.
-/
theorem c3_amended (stopping : Bool) (o : BodyOutcome) :
    (InterruptibleThread.run stopping o).head? = some .safelyAcquireInternalLock ∧
    (InterruptibleThread.run stopping o).count .setDone = 1 ∧
    TeardownEvent.setStopping ∉ InterruptibleThread.run stopping o ∧
    (InterruptibleThread.run stopping o).drop
        ((InterruptibleThread.run stopping o).length - 3) =
      [.setDone, .stopCallback, .releaseInternalLock] ∧
    (InterruptibleThread.safely_acquire_internal_lock stopping).1 = true := by
  cases stopping <;> cases o <;> decide

/--
C4 counterexample: on a concrete open channel the first close() succeeds but a
second close() raises AttributeError (None has no attribute shutdown), so a
second close is not a no-op that completes without raising.
-/
theorem c4_counterexample :
    (Channel.close (⟨some [], false, 0⟩ : Channel ℕ)).2 = none ∧
    (Channel.close (Channel.close (⟨some [], false, 0⟩ : Channel ℕ)).1).2 =
      some .attributeError := by
  decide

/--
C4 (corrected): after a first close() the channel is closed; a second close()
is not a no-op — it raises AttributeError — though it leaves the channel state
(including is_closed) unchanged.
-/
theorem c4_amended {T : Type} (c : Channel T) :
    ((Channel.close c).1).is_closed = true ∧
    (Channel.close ((Channel.close c).1)).2 = some .attributeError ∧
    (Channel.close ((Channel.close c).1)).1 = (Channel.close c).1 := by
  rcases c with ⟨q, cb, n⟩
  rcases q with _ | q <;> simp [Channel.close, Channel.is_closed]

/--
C5 (confirmed): after close() the channel reports closed, and every subsequent
put fails with the Closed contract error (ValueError "Channel is closed") while
leaving the channel state unchanged; a second put after the failed one fails
the same way.
-/
theorem c5_put_after_close {T : Type} (c : Channel T) (v w : T) :
    ((Channel.close c).1).is_closed = true ∧
    (Channel.put ((Channel.close c).1) v).2 = some .closedError ∧
    (Channel.put ((Channel.close c).1) v).1 = (Channel.close c).1 ∧
    (Channel.put ((Channel.put ((Channel.close c).1) v).1) w).2 =
      some .closedError := by
  rcases c with ⟨q, cb, n⟩
  rcases q with _ | q <;> simp [Channel.close, Channel.put, Channel.is_closed]

/--
C10 (confirmed): closing an open channel drops the internal queue reference:
is_closed becomes true, but every subsequent is_empty call — and therefore
every iteration step through Channel.__next__ — raises AttributeError, not the
Closed contract error and not StopIteration.
-/
theorem c10_close_breaks_iteration {T : Type} (c : Channel T)
    (h : c.is_closed = false) :
    (Channel.close c).2 = none ∧
    ((Channel.close c).1).is_closed = true ∧
    Channel.is_empty ((Channel.close c).1) = .error .attributeError ∧
    (Channel.next ((Channel.close c).1)).2 = .error .attributeError ∧
    Channel.is_empty ((Channel.close c).1) ≠ .error .closedError ∧
    (Channel.next ((Channel.close c).1)).2 ≠ .error .closedError ∧
    (Channel.next ((Channel.close c).1)).2 ≠ .error .stopIteration := by
  rcases c with ⟨q, cb, n⟩
  rcases q with _ | q
  · simp [Channel.is_closed] at h
  · simp [Channel.close, Channel.is_closed, Channel.is_empty, Channel.next]

/--
C10 witness: the theorem applied to a concrete open channel holding one item.
-/
theorem c10_witness :
    Channel.is_empty ((Channel.close (⟨some [1], false, 0⟩ : Channel ℕ)).1) =
      .error .attributeError ∧
    (Channel.next ((Channel.close (⟨some [1], false, 0⟩ : Channel ℕ)).1)).2 =
      .error .attributeError := by
  have h := c10_close_breaks_iteration (⟨some [1], false, 0⟩ : Channel ℕ) (by decide)
  exact ⟨h.2.2.1, h.2.2.2.1⟩

/--
C6 (confirmed): dispatch_future (and dispatch, which delegates to it) raises
IllegalDispatch exactly when the calling thread is the queue's own worker; when
it raises nothing is enqueued, and when it does not raise the call is appended
to the FIFO; safe_dispatch called from the queue's worker runs the function
inline, leaving the queue untouched, and otherwise delegates to dispatch.
-/
theorem c6_dispatch_guard (q : DispatchQueue) (caller : Option ℕ) (item : ℕ) :
    ((DispatchQueue.dispatch_future q caller item).2 = .error .illegalDispatch ↔
      caller = some q.worker) ∧
    ((DispatchQueue.dispatch q caller item).2 = .error .illegalDispatch ↔
      caller = some q.worker) ∧
    (caller = some q.worker → (DispatchQueue.dispatch_future q caller item).1 = q) ∧
    (caller ≠ some q.worker →
      (DispatchQueue.dispatch_future q caller item).1.queue = q.queue ++ [item]) ∧
    DispatchQueue.safe_dispatch q (some q.worker) item = (q, true) ∧
    (caller ≠ some q.worker →
      DispatchQueue.safe_dispatch q caller item =
        ((DispatchQueue.dispatch q caller item).1, false)) := by
  by_cases hc : caller = some q.worker <;>
    simp [DispatchQueue.dispatch_future, DispatchQueue.dispatch,
      DispatchQueue.safe_dispatch, hc]

/--
C6 witness: the theorem applied to a concrete queue whose worker is thread 0,
called from thread 0 with thunk 7.
-/
theorem c6_witness :
    (DispatchQueue.dispatch_future ⟨0, []⟩ (some 0) 7).2 = .error .illegalDispatch ∧
    (DispatchQueue.dispatch_future ⟨0, []⟩ (some 0) 7).1 = ⟨0, []⟩ ∧
    DispatchQueue.safe_dispatch ⟨0, []⟩ (some 0) 7 = (⟨0, []⟩, true) := by
  have h := c6_dispatch_guard ⟨0, []⟩ (some 0) 7
  exact ⟨h.1.mpr rfl, h.2.2.1 rfl, h.2.2.2.2.1⟩

/--
C1 (code_bug): stop cannot deliver ExitThread.  The throw guard returns early
whenever the stopping event is set, and stop sets the stopping event (line 81)
before every throw call of its delivery loop, so PyThreadState_SetAsyncExc is
never invoked: every modelled stop call performs zero deliveries, whatever the
environment — in particular also when the target is not done and its internal
lock is free.
-/
theorem c1_stop_never_delivers :
    (∀ done lockFree : Bool, InterruptibleThread.throw done true lockFree = false) ∧
    (∀ (fuel : ℕ) (t : ℚ) (env : StopEnv),
      (InterruptibleThread.stop fuel t env).delivered = 0) := by
  refine ⟨throw_of_stopping, ?_⟩
  intro fuel t env
  by_cases hg : (env.done0 || env.stopping0 || !env.stopLockFree) = true
  · simp [InterruptibleThread.stop, hg]
  · simp [InterruptibleThread.stop, hg, stopPhase1_delivered]

/--
C8 (confirmed): whenever a stop call's delivery loop exits — normally or by
TimeoutError — exactly one shield.release() runs, and when no shield acquire
succeeded during the call (in particular when the shield-wait loop never ran
an iteration) that release adds a permit the stopper never took: the shield
semaphore counter ends one above its initial value.
-/
theorem c8_shield_release_on_delivery_exit (fuel : ℕ) (t : ℚ) (env : StopEnv)
    (h : (InterruptibleThread.stop fuel t env).outcome = .returned ∨
      (InterruptibleThread.stop fuel t env).outcome = .timeout2) :
    (InterruptibleThread.stop fuel t env).shieldReleases = 1 ∧
    ((InterruptibleThread.stop fuel t env).acqSuccesses = 0 →
      (InterruptibleThread.stop fuel t env).finalShield.semCount =
        env.shield0.semCount + 1) := by
  by_cases hg : (env.done0 || env.stopping0 || !env.stopLockFree) = true
  · simp [InterruptibleThread.stop, hg] at h
  · have heq : InterruptibleThread.stop fuel t env =
        stopPhase1 t env fuel 0 env.shield0 0 0 := by
      simp [InterruptibleThread.stop, hg]
    rw [heq] at h ⊢
    exact stopPhase1_c8 t env env.shield0.semCount fuel 0 env.shield0 0 0
      (fun _ => rfl) h

/--
C8 witness: a stop call on a thread whose shield is not held and which is done
at the first delivery-loop check: the shield-wait loop performs no acquire,
stop returns normally, still releases the shield once, and leaves the fresh
shield semaphore at count 2.
-/
theorem c8_witness :
    (InterruptibleThread.stop 2 (1 / 10) envW).outcome = .returned ∧
    (InterruptibleThread.stop 2 (1 / 10) envW).acqAttempts = 0 ∧
    (InterruptibleThread.stop 2 (1 / 10) envW).shieldReleases = 1 ∧
    (InterruptibleThread.stop 2 (1 / 10) envW).finalShield.semCount = 2 := by
  have h := c8_shield_release_on_delivery_exit 2 (1 / 10) envW (Or.inl (by decide))
  refine ⟨by decide, by decide, h.1, ?_⟩
  have h2 := h.2 (by decide)
  rw [h2]
  decide

/--
C2 counterexample: a stop call with finite positive timeout issued while the
stopping event is already set (a second stop racing a first one) returns at the
initial guard: it neither returns with done set nor raises TimeoutError, so
the claimed dichotomy fails for this call.
-/
theorem c2_counterexample :
    (InterruptibleThread.stop 5 1 envC).outcome = .earlyReturn ∧
    (InterruptibleThread.stop 5 1 envC).outcome ≠ .timeout1 ∧
    (InterruptibleThread.stop 5 1 envC).outcome ≠ .timeout2 ∧
    (InterruptibleThread.stop 5 1 envC).lastDone = false ∧
    envC.stopping0 = true ∧
    envC.done0 = false := by
  decide

/--
C2 (corrected): for a stop call with finite positive timeout t that passes the
initial guard (done unset, stopping unset, stop lock free), when the monotone
clock eventually shows t elapsed (reading N+1) and the fuel covers that bound,
the call terminates and either returns having observed done set, or raises
TimeoutError having just observed done unset; moreover, when each wait advances
the clock by at most the slice it was given, every clock reading stays within
the budget and the TimeoutError is raised exactly when the elapsed time reaches
t — the call ends within t.
-/
theorem c2_amended (fuel : ℕ) (t : ℚ) (env : StopEnv) (N : ℕ)
    (ht : 0 < t) (hmono : Monotone env.clock)
    (hN : t ≤ env.clock (N + 1) - env.clock 0)
    (hfuel : N + 2 ≤ fuel)
    (hdone : env.done0 = false) (hstopping : env.stopping0 = false)
    (hlock : env.stopLockFree = true)
    (hstart : env.clock 1 - env.clock 0 ≤ t)
    (hadv : ∀ j, env.clock (j + 2) - env.clock (j + 1) ≤
      (generate_timeout_durations t env.clock stepDefault j).getD 0) :
    (((InterruptibleThread.stop fuel t env).outcome = .returned ∧
        (InterruptibleThread.stop fuel t env).lastDone = true) ∨
      (((InterruptibleThread.stop fuel t env).outcome = .timeout1 ∨
          (InterruptibleThread.stop fuel t env).outcome = .timeout2) ∧
        (InterruptibleThread.stop fuel t env).lastDone = false)) ∧
    (∀ j, env.clock (j + 1) - env.clock 0 ≤ t) ∧
    (∀ e, (InterruptibleThread.stop fuel t env).raiseElapsed = some e → e = t) := by
  have heq : InterruptibleThread.stop fuel t env =
      stopPhase1 t env fuel 0 env.shield0 0 0 := by
    simp [InterruptibleThread.stop, hdone, hstopping, hlock]
  have hread := clock_readings_le t env.clock stepDefault ht hstart hadv
  refine ⟨?_, hread, ?_⟩
  · rw [heq]
    exact stopPhase1_dichotomy t env N ht hmono hN fuel 0 env.shield0 0 0
      (by omega) (by omega)
  · intro e he
    rw [heq] at he
    obtain ⟨hte, ⟨k, hk⟩⟩ := stopPhase1_raise t env ht fuel 0 env.shield0 0 0 e he
    have hle := hread k
    rw [hk] at hte ⊢
    linarith

theorem envW_clock_mono : Monotone envW.clock := by
  intro a b hab
  rcases a with _ | a
  · rcases b with _ | b <;> norm_num [envW]
  · rcases b with _ | b
    · exact absurd hab (by omega)
    · norm_num [envW]

theorem envW_adv : ∀ j, envW.clock (j + 2) - envW.clock (j + 1) ≤
    (generate_timeout_durations (1 / 10) envW.clock stepDefault j).getD 0 := by
  intro j
  have h1 : envW.clock (j + 2) = 1 / 10 := by norm_num [envW]
  have h2 : envW.clock (j + 1) = 1 / 10 := by norm_num [envW]
  have h3 : generate_timeout_durations (1 / 10) envW.clock stepDefault j = none := by
    rw [generate_timeout_durations_none_iff _ _ _ _ (by norm_num)]
    rw [h2]
    norm_num [envW]
  rw [h1, h2, h3]
  norm_num

/--
C2 witness: the amended theorem applied to a concrete guard-passing call with
t = 1/10 whose target is done at the first delivery check.
-/
theorem c2_amended_witness :
    (0 : ℚ) < 1 / 10 ∧
    (((InterruptibleThread.stop 2 (1 / 10) envW).outcome = .returned ∧
        (InterruptibleThread.stop 2 (1 / 10) envW).lastDone = true) ∨
      (((InterruptibleThread.stop 2 (1 / 10) envW).outcome = .timeout1 ∨
          (InterruptibleThread.stop 2 (1 / 10) envW).outcome = .timeout2) ∧
        (InterruptibleThread.stop 2 (1 / 10) envW).lastDone = false)) := by
  refine ⟨by norm_num, ?_⟩
  exact (c2_amended 2 (1 / 10) envW 0 (by norm_num) envW_clock_mono
    (by norm_num [envW]) (by norm_num) rfl rfl rfl (by norm_num [envW]) envW_adv).1

theorem exClock_gen (n : ℕ) :
    generate_timeout_durations (1 / 2) exClock (1 / 10) n = some (1 / 10) := by
  rw [generate_timeout_durations_some_iff _ _ _ _ _ (by norm_num)]
  constructor
  · norm_num [exClock]
  · have h1 : (1 : ℚ) / 2 - (exClock (n + 1) - exClock 0) = 1 / 2 := by
      norm_num [exClock]
    rw [h1, min_eq_left (by norm_num)]

theorem exClock_gen_util (n : ℕ) :
    generate_timeout_durations_utilities (1 / 2) exClock n = some (1 / 2) := by
  rw [generate_timeout_durations_utilities_some_iff _ _ _ _ (by norm_num)]
  constructor
  · norm_num [exClock]
  · norm_num [exClock]

/--
C7 counterexample: with budget 1/2 and the constant (hence monotone) clock, the
threads.py generator yields the positive duration 1/10 on each of its first six
next() calls — their sum 3/5 exceeds the budget — and the utilities.py
generator yields 1/2 twice, summing to 1: the yields of neither version sum to
at most the budget.
-/
theorem c7_counterexample :
    Monotone exClock ∧
    ((List.range 6).map fun n => generate_timeout_durations (1 / 2) exClock (1 / 10) n) =
      List.replicate 6 (some (1 / 10)) ∧
    (((List.range 6).map fun n =>
      (generate_timeout_durations (1 / 2) exClock (1 / 10) n).getD 0).sum = 3 / 5) ∧
    ¬((3 / 5 : ℚ) ≤ 1 / 2) ∧
    ((List.range 2).map fun n => generate_timeout_durations_utilities (1 / 2) exClock n) =
      List.replicate 2 (some (1 / 2)) ∧
    (((List.range 2).map fun n =>
      (generate_timeout_durations_utilities (1 / 2) exClock n).getD 0).sum = 1) ∧
    ¬((1 : ℚ) ≤ 1 / 2) := by
  have hr6 : List.range 6 = [0, 1, 2, 3, 4, 5] := rfl
  have hr2 : List.range 2 = [0, 1] := rfl
  refine ⟨monotone_const, ?_, ?_, by norm_num, ?_, ?_, by norm_num⟩
  · rw [hr6]
    simp only [List.map_cons, List.map_nil, exClock_gen]
    rfl
  · rw [hr6]
    simp only [List.map_cons, List.map_nil, exClock_gen, Option.getD_some,
      List.sum_cons, List.sum_nil]
    norm_num
  · rw [hr2]
    simp only [List.map_cons, List.map_nil, exClock_gen_util]
    rfl
  · rw [hr2]
    simp only [List.map_cons, List.map_nil, exClock_gen_util, Option.getD_some,
      List.sum_cons, List.sum_nil]
    norm_num

/--
C7 (corrected): with timeout 0 both generators yield 0 forever and never raise;
with positive timeout every yielded duration is positive and at most the
remaining budget; when, between consecutive next() calls, the clock advances by
at least the duration just yielded (the consumer waits out each slice), the
yields sum to at most the budget; and as soon as the clock shows the budget
elapsed the generator raises TimeoutError instead of yielding.  Without the
clock-advancement assumption the sum bound fails (see the counterexample).
-/
theorem c7_amended :
    (∀ (c : ℕ → ℚ) (s : ℚ) (n : ℕ),
      generate_timeout_durations 0 c s n = some 0 ∧
      generate_timeout_durations_utilities 0 c n = some 0) ∧
    (∀ (t : ℚ) (c : ℕ → ℚ) (s : ℚ) (n : ℕ) (d : ℚ), 0 < t → 0 < s →
      generate_timeout_durations t c s n = some d →
      0 < d ∧ d ≤ t - (c (n + 1) - c 0)) ∧
    (∀ (t : ℚ) (c : ℕ → ℚ) (n : ℕ) (d : ℚ), 0 < t →
      generate_timeout_durations_utilities t c n = some d →
      0 < d ∧ d ≤ t - (c (n + 1) - c 0)) ∧
    (∀ (t : ℚ) (c : ℕ → ℚ) (s : ℚ) (n : ℕ), 0 < t → Monotone c →
      (∀ j, (generate_timeout_durations t c s j).getD 0 ≤ c (j + 2) - c (j + 1)) →
      ((List.range n).map fun j =>
        (generate_timeout_durations t c s j).getD 0).sum ≤ t) ∧
    (∀ (t : ℚ) (c : ℕ → ℚ) (n : ℕ), 0 < t → Monotone c →
      (∀ j, (generate_timeout_durations_utilities t c j).getD 0 ≤ c (j + 2) - c (j + 1)) →
      ((List.range n).map fun j =>
        (generate_timeout_durations_utilities t c j).getD 0).sum ≤ t) ∧
    (∀ (t : ℚ) (c : ℕ → ℚ) (s : ℚ) (n : ℕ), 0 < t → t ≤ c (n + 1) - c 0 →
      generate_timeout_durations t c s n = none ∧
      generate_timeout_durations_utilities t c n = none) := by
  refine ⟨?_, ?_, ?_, ?_, ?_, ?_⟩
  · intro c s n
    constructor <;>
      simp [generate_timeout_durations, generate_timeout_durations_utilities]
  · intro t c s n d ht hs h
    obtain ⟨hlt, hd⟩ :=
      (generate_timeout_durations_some_iff t c s n d (ne_of_gt ht)).mp h
    subst hd
    exact ⟨lt_min hs (by linarith), min_le_right _ _⟩
  · intro t c n d ht h
    obtain ⟨hlt, hd⟩ :=
      (generate_timeout_durations_utilities_some_iff t c n d (ne_of_gt ht)).mp h
    subst hd
    exact ⟨by linarith, le_refl _⟩
  · intro t c s n ht hmono hadv
    exact yields_sum_le t c _ ht (hmono (Nat.zero_le 1))
      (fun j => generate_timeout_durations_getD_cases t c s j (ne_of_gt ht)) hadv n
  · intro t c n ht hmono hadv
    exact yields_sum_le t c _ ht (hmono (Nat.zero_le 1))
      (fun j => generate_timeout_durations_utilities_getD_cases t c j (ne_of_gt ht))
      hadv n
  · intro t c s n ht hge
    exact ⟨(generate_timeout_durations_none_iff t c s n (ne_of_gt ht)).mpr hge,
      (generate_timeout_durations_utilities_none_iff t c n (ne_of_gt ht)).mpr hge⟩

theorem castClock_mono : Monotone castClock := Nat.mono_cast

theorem castClock_gen0 :
    generate_timeout_durations 2 castClock (1 / 10) 0 = some (1 / 10) := by
  rw [generate_timeout_durations_some_iff _ _ _ _ _ (by norm_num)]
  constructor
  · norm_num [castClock]
  · have h1 : castClock (0 + 1) - castClock 0 = 1 := by norm_num [castClock]
    rw [h1, show (2 : ℚ) - 1 = 1 by norm_num, min_eq_left (by norm_num)]

theorem castClock_gen0_util :
    generate_timeout_durations_utilities 2 castClock 0 = some 1 := by
  rw [generate_timeout_durations_utilities_some_iff _ _ _ _ (by norm_num)]
  constructor
  · norm_num [castClock]
  · norm_num [castClock]

theorem castClock_adv : ∀ j, (generate_timeout_durations 2 castClock (1 / 10) j).getD 0 ≤
    castClock (j + 2) - castClock (j + 1) := by
  intro j
  have hdiff : castClock (j + 2) - castClock (j + 1) = 1 := by
    simp only [castClock]
    push_cast
    ring
  rw [hdiff]
  rcases j with _ | k
  · rw [castClock_gen0]
    norm_num
  · have hnone : generate_timeout_durations 2 castClock (1 / 10) (k + 1) = none := by
      rw [generate_timeout_durations_none_iff _ _ _ _ (by norm_num)]
      simp only [castClock]
      push_cast
      linarith [Nat.cast_nonneg (α := ℚ) k]
    rw [hnone]
    norm_num

theorem castClock_adv_util : ∀ j,
    (generate_timeout_durations_utilities 2 castClock j).getD 0 ≤
      castClock (j + 2) - castClock (j + 1) := by
  intro j
  have hdiff : castClock (j + 2) - castClock (j + 1) = 1 := by
    simp only [castClock]
    push_cast
    ring
  rw [hdiff]
  rcases j with _ | k
  · rw [castClock_gen0_util]
    norm_num
  · have hnone : generate_timeout_durations_utilities 2 castClock (k + 1) = none := by
      rw [generate_timeout_durations_utilities_none_iff _ _ _ (by norm_num)]
      simp only [castClock]
      push_cast
      linarith [Nat.cast_nonneg (α := ℚ) k]
    rw [hnone]
    norm_num

/--
C7 witness: the amended theorem applied to budget 2 with the identity clock:
the zero-budget branch, the positivity bound at the first yield, the sum bound
over three next() calls for both generators, and the raise once two seconds
have elapsed.
-/
theorem c7_amended_witness :
    generate_timeout_durations 0 castClock (1 / 10) 0 = some 0 ∧
    ((0 : ℚ) < 1 / 10 ∧ (1 / 10 : ℚ) ≤ 2 - (castClock (0 + 1) - castClock 0)) ∧
    (((List.range 3).map fun j =>
      (generate_timeout_durations 2 castClock (1 / 10) j).getD 0).sum ≤ 2) ∧
    (((List.range 3).map fun j =>
      (generate_timeout_durations_utilities 2 castClock j).getD 0).sum ≤ 2) ∧
    generate_timeout_durations 2 castClock (1 / 10) 1 = none ∧
    generate_timeout_durations_utilities 2 castClock 1 = none := by
  have h1 := (c7_amended.1 castClock (1 / 10) 0).1
  have h2 := c7_amended.2.1 2 castClock (1 / 10) 0 (1 / 10) (by norm_num) (by norm_num)
    castClock_gen0
  have h4 := c7_amended.2.2.2.1 2 castClock (1 / 10) 3 (by norm_num) castClock_mono
    castClock_adv
  have h5 := c7_amended.2.2.2.2.1 2 castClock 3 (by norm_num) castClock_mono
    castClock_adv_util
  have h6 := c7_amended.2.2.2.2.2 2 castClock (1 / 10) 1 (by norm_num)
    (by norm_num [castClock])
  exact ⟨h1, h2, h4, h5, h6.1, h6.2⟩
